import Mathlib

/-!
# Verification of the kronosnet compression layer and test-harness contracts

Shallow embedding of `src/libknet/compress.c`, and of the teardown / skip /
quit-handshake logic of `src/libknet/tests/test-common.c` and
`src/libknet/tests/fun_dynamic_check.c`.

The bodies of the per-algorithm hooks (`zlib_compress`, `lzo2_init`, ...) and
the values of the `internals.h` macros (`KNET_MAX_COMPRESS_METHODS`,
`KNET_MAX_PACKET_SIZE`, `KNET_COMPRESS_THRESHOLD`) live outside the excerpt;
they are abstracted as an environment of hook return values and a structure of
numeric constants, so every theorem holds for each possible instantiation.
-/

namespace Knet

/-- The errno values the embedded code reads or writes. -/
inductive Errno where
  | EINVAL
  | EADDRINUSE
  | EPROTONOSUPPORT
  | EAGAIN
  | ETIMEDOUT
  | ENOMEM
deriving DecidableEq, Repr

/-- One row of the compression dispatch table (`compress_model_t` in
`compress.c`): a model name plus five optional function pointers.  The
function pointers are represented by the *names* of the C functions they point
at (so that e.g. `lz4` and `lz4hc` demonstrably share `lz4_decompress`); their
semantics is supplied separately by a `HookEnv`. -/
structure compress_model_t where
  model_name : Option String
  init : Option String
  fini : Option String
  val_level : Option String
  compress : Option String
  decompress : Option String
deriving DecidableEq, Repr

/-- The registered compression-algorithm table `compress_modules_cmds` of
`compress.c`, verbatim: seven registered rows followed by the NULL sentinel
row. -/
def compress_modules_cmds : List compress_model_t :=
  [ ⟨some "none", none, none, none, none, none⟩,
    ⟨some "zlib", none, none, some "zlib_val_level", some "zlib_compress", some "zlib_decompress"⟩,
    ⟨some "lz4", none, none, some "lz4_val_level", some "lz4_compress", some "lz4_decompress"⟩,
    ⟨some "lz4hc", none, none, some "lz4hc_val_level", some "lz4hc_compress", some "lz4_decompress"⟩,
    ⟨some "lzo2", some "lzo2_init", some "lzo2_fini", some "lzo2_val_level", some "lzo2_compress", some "lzo2_decompress"⟩,
    ⟨some "lzma", none, none, some "lzma_val_level", some "lzma_compress", some "lzma_decompress"⟩,
    ⟨some "bzip2", none, none, some "bzip2_val_level", some "bzip2_compress", some "bzip2_decompress"⟩,
    ⟨none, none, none, none, none, none⟩ ]

/-- Function `get_model_by_idx` of `compress.c`: the model name stored at a numeric
index (`none` when the read would fall on the sentinel or out of bounds). -/
def get_model_by_idx (idx : Nat) : Option String :=
  (compress_modules_cmds.get? idx).bind (fun e => e.model_name)

/-- Inner loop of `get_model`: walk the rows, stopping at the NULL sentinel,
returning the index of the first row whose name compares equal. -/
def get_model_from (model : String) : List compress_model_t → Nat → Int
  | [], _ => -1
  | e :: rest, idx =>
    match e.model_name with
    | none => -1
    | some name => if name = model then (idx : Int) else get_model_from model rest (idx + 1)

/-- Function `get_model` of `compress.c`: name → numeric index, `-1` when unknown. -/
def get_model (model : String) : Int :=
  get_model_from model compress_modules_cmds 0

/-- Number of registered (non-sentinel) leading rows of a table. -/
def registered_count : List compress_model_t → Nat
  | [] => 0
  | e :: rest =>
    match e.model_name with
    | none => 0
    | some _ => registered_count rest + 1

/-- Function `get_max_model` of `compress.c`: index of the last registered row. -/
def get_max_model : Int :=
  (registered_count compress_modules_cmds : Int) - 1

/-- The compression-related fields of `struct knet_handle` (`internals.h`),
plus the lzo2 scratch state.  Modelled from the spec: "the compression layer
owns per-algorithm scratch state keyed by handle"; the only registered module
with init/fini hooks is lzo2, whose init hook acquires that scratch state and
whose fini hook releases it (`compress_lzo2.c` is outside the excerpt). -/
structure knet_handle where
  compress_model : Int
  compress_level : Int
  compress_threshold : Nat
  compress_max_model : Int
  lzo2_mem : Bool
deriving DecidableEq, Repr

/-- The `internals.h` macros consumed by `compress.c`; their numeric values
are outside the excerpt (in current kronosnet: 16, 65536 and 100). -/
structure CompressConsts where
  KNET_MAX_COMPRESS_METHODS : Int
  KNET_MAX_PACKET_SIZE : Nat
  KNET_COMPRESS_THRESHOLD : Nat
deriving DecidableEq, Repr

/-- Return values of the per-algorithm hooks, keyed by the C function name a
table row points at; the hook bodies live in `compress_zlib.c` etc., outside
the excerpt, so they are universally quantified in every theorem. -/
structure HookEnv where
  init_ret : String → Nat → Int
  val_level_ret : String → Int → Int
  comp_fn : String → List Nat → Int × List Nat
  decomp_fn : String → List Nat → Int × List Nat

/-- The `struct knet_handle_compress_cfg` of `libknet.h`: the caller-supplied
model name, level and threshold. -/
structure knet_handle_compress_cfg where
  compress_model : String
  compress_level : Int
  compress_threshold : Nat
deriving DecidableEq, Repr

/-- Observable outcome of `compress_init`: the C return value, the errno the
call wrote (`none` when it left errno untouched) and the handle state after
the call. -/
structure InitResult where
  ret : Int
  err : Option Errno
  h : knet_handle
deriving DecidableEq, Repr

/-- State effect of running the init hook named `name` on the handle.
Modelled from the spec: lzo2's init hook acquires the handle-keyed scratch
state; no other registered hook touches the handle. -/
def apply_init_hook (name : String) (h : knet_handle) : knet_handle :=
  if name = "lzo2_init" then { h with lzo2_mem := true } else h

/-- State effect of running the fini hook named `name` on the handle.
Modelled from the spec: lzo2's fini hook releases the handle-keyed scratch
state; no other registered hook touches the handle. -/
def apply_fini_hook (name : String) (h : knet_handle) : knet_handle :=
  if name = "lzo2_fini" then { h with lzo2_mem := false } else h

/-- Result of the `cfg == NULL` pre-warming loop of `compress_init`: return
value, errno, handle state and the `(index, hook)` init calls it issued. -/
structure InitLoopRes where
  ret : Int
  err : Option Errno
  h : knet_handle
  calls : List (Nat × String)
deriving DecidableEq, Repr

/-- The `cfg == NULL` loop of `compress_init` (`compress.c` lines 96-106):
walk the table to the sentinel, run every declared init hook in order, and
fail with `EINVAL` as soon as one returns a negative value. -/
def compress_init_loop (env : HookEnv) :
    List compress_model_t → Nat → knet_handle → InitLoopRes
  | [], _, h => ⟨0, none, h, []⟩
  | e :: rest, idx, h =>
    match e.model_name with
    | none => ⟨0, none, h, []⟩
    | some _ =>
      match e.init with
      | none => compress_init_loop env rest (idx + 1) h
      | some iname =>
        if env.init_ret iname idx < 0 then
          ⟨-1, some Errno.EINVAL, h, [(idx, iname)]⟩
        else
          let r := compress_init_loop env rest (idx + 1) (apply_init_hook iname h)
          ⟨r.ret, r.err, r.h, (idx, iname) :: r.calls⟩

/-- The `val_level` function pointer stored at a numeric index. -/
def val_level_hook (m : Int) : Option String :=
  if m < 0 then none
  else (compress_modules_cmds.get? m.toNat).bind (fun e => e.val_level)

/-- Function `compress_init` of `compress.c`.  `none` models a call through a NULL
function pointer (unreachable for the actual table).  Flow, verbatim from the
source: refresh `compress_max_model`; fail when it exceeds
`KNET_MAX_COMPRESS_METHODS`; with no cfg run the pre-warming loop; otherwise
look the name up, reject unknown names, and for a non-"none" model validate
the level, bound the threshold by `KNET_MAX_PACKET_SIZE`, substitute the
default threshold for zero; finally store model and level. -/
def compress_init (C : CompressConsts) (env : HookEnv)
    (cfg : Option knet_handle_compress_cfg) (h0 : knet_handle) : Option InitResult :=
  let h := { h0 with compress_max_model := get_max_model }
  if get_max_model > C.KNET_MAX_COMPRESS_METHODS then
    some ⟨-1, some Errno.EINVAL, h⟩
  else
    match cfg with
    | none =>
      let r := compress_init_loop env compress_modules_cmds 0 h
      some ⟨r.ret, r.err, r.h⟩
    | some cfg =>
      let cmp_model := get_model cfg.compress_model
      if cmp_model < 0 then
        some ⟨-1, some Errno.EINVAL, h⟩
      else if 0 < cmp_model then
        match val_level_hook cmp_model with
        | none => none
        | some vname =>
          if env.val_level_ret vname cfg.compress_level < 0 then
            some ⟨-1, some Errno.EINVAL, h⟩
          else if cfg.compress_threshold > C.KNET_MAX_PACKET_SIZE then
            some ⟨-1, some Errno.EINVAL, h⟩
          else
            let h :=
              if cfg.compress_threshold = 0 then
                { h with compress_threshold := C.KNET_COMPRESS_THRESHOLD }
              else
                { h with compress_threshold := cfg.compress_threshold }
            some ⟨0, none,
              { h with compress_model := cmp_model, compress_level := cfg.compress_level }⟩
      else
        some ⟨0, none,
          { h with compress_model := cmp_model, compress_level := cfg.compress_level }⟩

/-- The `(index, hook)` init calls a `compress_init` run issues (empty when a
cfg is supplied: that path calls no init hook). -/
def compress_init_calls (C : CompressConsts) (env : HookEnv)
    (cfg : Option knet_handle_compress_cfg) (h0 : knet_handle) : List (Nat × String) :=
  let h := { h0 with compress_max_model := get_max_model }
  if get_max_model > C.KNET_MAX_COMPRESS_METHODS then []
  else
    match cfg with
    | none => (compress_init_loop env compress_modules_cmds 0 h).calls
    | some _ => []

/-- The `(index, hook)` pairs of the registered rows that declare an init
hook, in table order. -/
def declared_init_hooks : List compress_model_t → Nat → List (Nat × String)
  | [], _ => []
  | e :: rest, idx =>
    match e.model_name with
    | none => []
    | some _ =>
      match e.init with
      | none => declared_init_hooks rest (idx + 1)
      | some iname => (idx, iname) :: declared_init_hooks rest (idx + 1)

/-- Inner loop of `compress_fini` (`compress.c` lines 151-156): walk the rows
while the name is non-NULL and the index is below `KNET_MAX_COMPRESS_METHODS`,
running every declared fini hook; returns the handle state and the
`(index, hook)` fini calls issued. -/
def compress_fini_loop (M : Int) :
    List compress_model_t → Nat → knet_handle → knet_handle × List (Nat × String)
  | [], _, h => (h, [])
  | e :: rest, idx, h =>
    match e.model_name with
    | none => (h, [])
    | some _ =>
      if (idx : Int) < M then
        match e.fini with
        | none => compress_fini_loop M rest (idx + 1) h
        | some fname =>
          let r := compress_fini_loop M rest (idx + 1) (apply_fini_hook fname h)
          (r.1, (idx, fname) :: r.2)
      else (h, [])

/-- Function `compress_fini` of `compress.c`: state effect on the handle, with
`KNET_MAX_COMPRESS_METHODS` abstracted as `M`. -/
def compress_fini (M : Int) (h : knet_handle) : knet_handle :=
  (compress_fini_loop M compress_modules_cmds 0 h).1

/-- The `(index, hook)` fini calls a `compress_fini` run issues. -/
def compress_fini_calls (M : Int) (h : knet_handle) : List (Nat × String) :=
  (compress_fini_loop M compress_modules_cmds 0 h).2

/-- The `(index, hook)` pairs of the registered rows that declare a fini
hook, in table order. -/
def declared_fini_hooks : List compress_model_t → Nat → List (Nat × String)
  | [], _ => []
  | e :: rest, idx =>
    match e.model_name with
    | none => []
    | some _ =>
      match e.fini with
      | none => declared_fini_hooks rest (idx + 1)
      | some fname => (idx, fname) :: declared_fini_hooks rest (idx + 1)

/-- Function `compress` of `compress.c`: dispatch through the `compress` function
pointer of the row at the handle's own `compress_model`; `none` models a
negative or NULL-pointer dispatch (undefined behaviour in C). -/
def compress (env : HookEnv) (knet_h : knet_handle) (buf_in : List Nat) :
    Option (Int × List Nat) :=
  if knet_h.compress_model < 0 then none
  else
    match (compress_modules_cmds.get? knet_h.compress_model.toNat).bind
        (fun e => e.compress) with
    | none => none
    | some cname => some (env.comp_fn cname buf_in)

/-- Function `decompress` of `compress.c`: dispatch through the `decompress` function
pointer of the row at the explicit `compress_model` argument (the index taken
from the incoming packet header), not at the handle's own selection. -/
def decompress (env : HookEnv) (knet_h : knet_handle) (compress_model : Int)
    (buf_in : List Nat) : Option (Int × List Nat) :=
  if compress_model < 0 then none
  else
    match (compress_modules_cmds.get? compress_model.toNat).bind
        (fun e => e.decompress) with
    | none => none
    | some dname => some (env.decomp_fn dname buf_in)

/-- One configured link slot of a host, as `knet_link_get_link_list` and
`knet_link_get_enable` report it: its slot id and its enable flag. -/
structure LinkSt where
  id : Nat
  enabled : Bool
deriving DecidableEq, Repr

/-- One host of a handle: its node id and its configured links, in the order
`knet_link_get_link_list` reports them. -/
structure HostSt where
  id : Nat
  links : List LinkSt
deriving DecidableEq, Repr

/-- The knet API calls `knet_handle_stop` of `test-common.c` issues
(each constructor is one libknet entry point with the arguments the harness
passes). -/
inductive StopEv where
  | setfwd (enabled : Bool)
  | get_host_list
  | get_link_list (host : Nat)
  | get_enable (host : Nat) (link : Nat)
  | set_enable (host : Nat) (link : Nat) (enabled : Bool)
  | clear_config (host : Nat) (link : Nat)
  | host_remove (host : Nat)
  | handle_free
deriving DecidableEq, Repr

/-- Inner loop of `knet_handle_stop` over one host's links (`test-common.c`
lines 393-406): query the enable flag of the j-th reported link id
(`link_ids[j]`), then disable (when enabled) and clear by the loop counter
`j` itself — the source passes `j`, not `link_ids[j]`, to
`knet_link_set_enable` and `knet_link_clear_config`. -/
def stop_link_events (hostId : Nat) : Nat → List LinkSt → List StopEv
  | _, [] => []
  | j, l :: rest =>
    StopEv.get_enable hostId l.id ::
      ((if l.enabled then [StopEv.set_enable hostId j false] else []) ++
        (StopEv.clear_config hostId j :: stop_link_events hostId (j + 1) rest))

/-- Outer loop of `knet_handle_stop` over the reported hosts (`test-common.c`
lines 388-411): per host, list its links, run the link loop, then remove the
host. -/
def stop_host_events : List HostSt → List StopEv
  | [] => []
  | hst :: rest =>
    StopEv.get_link_list hst.id ::
      (stop_link_events hst.id 0 hst.links ++
        (StopEv.host_remove hst.id :: stop_host_events rest))

/-- The call trace of `knet_handle_stop` (`test-common.c` lines 365-419) on a
non-NULL handle whose host/link state is `hosts`, on the path where every
knet API call succeeds (the API bodies are outside the excerpt; on any
failure the function returns early, issuing a prefix of this trace). -/
def knet_handle_stop_trace (hosts : List HostSt) : List StopEv :=
  StopEv.setfwd false :: StopEv.get_host_list ::
    (stop_host_events hosts ++ [StopEv.handle_free])

/-- Predicate `occursBefore a b tr`: some occurrence of `a` strictly precedes some
occurrence of `b` in the trace `tr`. -/
def occursBefore (a b : StopEv) : List StopEv → Prop
  | [] => False
  | e :: rest => (e = a ∧ b ∈ rest) ∨ occursBefore a b rest

instance occursBefore.inst (a b : StopEv) :
    (tr : List StopEv) → Decidable (occursBefore a b tr)
  | [] => .isFalse (fun h => h)
  | e :: rest =>
    have : Decidable (occursBefore a b rest) := occursBefore.inst a b rest
    inferInstanceAs (Decidable ((e = a ∧ b ∈ rest) ∨ occursBefore a b rest))

lemma occursBefore_cons {a b : StopEv} (e : StopEv) {l : List StopEv}
    (h : occursBefore a b l) : occursBefore a b (e :: l) :=
  Or.inr h

lemma occursBefore_append_right {a b : StopEv} (l1 : List StopEv)
    {l2 : List StopEv} (h : occursBefore a b l2) :
    occursBefore a b (l1 ++ l2) := by
  induction l1 with
  | nil => exact h
  | cons e l1 ih => exact occursBefore_cons e ih

lemma occursBefore_append_left {a b : StopEv} {l1 : List StopEv}
    (l2 : List StopEv) (h : occursBefore a b l1) :
    occursBefore a b (l1 ++ l2) := by
  induction l1 with
  | nil => exact absurd h (fun h => h)
  | cons e l1 ih =>
    rcases h with ⟨rfl, hb⟩ | h
    · exact Or.inl ⟨rfl, List.mem_append_left l2 hb⟩
    · exact occursBefore_cons e (ih h)

lemma occursBefore_of_mem {a b : StopEv} {l1 l2 : List StopEv}
    (ha : a ∈ l1) (hb : b ∈ l2) : occursBefore a b (l1 ++ l2) := by
  induction l1 with
  | nil => exact absurd ha (List.not_mem_nil a)
  | cons e l1 ih =>
    rcases List.mem_cons.mp ha with rfl | ha
    · exact Or.inl ⟨rfl, List.mem_append_right l1 hb⟩
    · exact occursBefore_cons e (ih ha)

lemma get?_some_lt {α : Type} {l : List α} {n : Nat} {a : α}
    (h : l.get? n = some a) : n < l.length := by
  by_contra hge
  rw [List.get?_eq_none.mpr (Nat.le_of_not_lt hge)] at h
  exact Option.noConfusion h

/-- When `get_link_list` reports link ids `0, 1, ..., k-1` in order (as it
does for the links the harness configures), the j-th reported link has id
`j`. -/
lemma link_id_of_wellIndexed {links : List LinkSt}
    (hw : links.map LinkSt.id = List.range links.length)
    {j : Nat} {l : LinkSt} (hj : links.get? j = some l) : l.id = j := by
  have hlt : j < links.length := get?_some_lt hj
  have h1 : (links.map LinkSt.id).get? j = some l.id := by
    rw [List.get?_map, hj]
    rfl
  rw [hw, List.get?_range hlt] at h1
  exact (Option.some.inj h1).symm

lemma stop_link_disable_before_clear (hostId : Nat) :
    ∀ (links : List LinkSt) (j0 j : Nat) (l : LinkSt),
      links.get? j = some l → l.enabled = true →
      occursBefore (StopEv.set_enable hostId (j0 + j) false)
        (StopEv.clear_config hostId (j0 + j)) (stop_link_events hostId j0 links)
  | [], _, j, l, hj, _ => by simp at hj
  | l0 :: rest, j0, 0, l, hj, he => by
    obtain rfl : l0 = l := by simpa using hj
    simp only [stop_link_events, he, if_true, Nat.add_zero]
    refine Or.inr (Or.inl ⟨rfl, ?_⟩)
    simp
  | l0 :: rest, j0, j + 1, l, hj, he => by
    have ih := stop_link_disable_before_clear hostId rest (j0 + 1) j l (by simpa using hj) he
    have harith : j0 + (j + 1) = (j0 + 1) + j := by omega
    rw [harith]
    simp only [stop_link_events]
    exact Or.inr (occursBefore_append_right _ (occursBefore_cons _ ih))

lemma stop_link_clear_mem (hostId : Nat) :
    ∀ (links : List LinkSt) (j0 j : Nat), j < links.length →
      StopEv.clear_config hostId (j0 + j) ∈ stop_link_events hostId j0 links
  | [], _, j, hj => absurd hj (by simp)
  | l :: rest, j0, 0, _ => by
    simp [stop_link_events]
  | l :: rest, j0, j + 1, hj => by
    have ih := stop_link_clear_mem hostId rest (j0 + 1) j (by simpa using hj)
    have harith : j0 + (j + 1) = (j0 + 1) + j := by omega
    rw [harith]
    simp only [stop_link_events]
    exact List.mem_cons_of_mem _ (List.mem_append_right _ (List.mem_cons_of_mem _ ih))

lemma host_remove_mem_stop_host_events :
    ∀ (hosts : List HostSt) (hst : HostSt), hst ∈ hosts →
      StopEv.host_remove hst.id ∈ stop_host_events hosts
  | [], _, hmem => absurd hmem (List.not_mem_nil _)
  | h0 :: rest, hst, hmem => by
    rcases List.mem_cons.mp hmem with rfl | hmem
    · simp [stop_host_events]
    · have ih := host_remove_mem_stop_host_events rest hst hmem
      simp only [stop_host_events]
      exact List.mem_cons_of_mem _ (List.mem_append_right _ (List.mem_cons_of_mem _ ih))

lemma occursBefore_in_host_block {a b : StopEv} :
    ∀ (hosts : List HostSt) (hst : HostSt), hst ∈ hosts →
      (∀ tail : List StopEv,
        occursBefore a b (stop_link_events hst.id 0 hst.links ++
          (StopEv.host_remove hst.id :: tail))) →
      occursBefore a b (stop_host_events hosts)
  | [], _, hmem, _ => absurd hmem (List.not_mem_nil _)
  | h0 :: rest, hst, hmem, hblk => by
    rcases List.mem_cons.mp hmem with rfl | hmem
    · exact occursBefore_cons _ (hblk (stop_host_events rest))
    · have ih := occursBefore_in_host_block rest hst hmem hblk
      exact occursBefore_cons _ (occursBefore_append_right _ (occursBefore_cons _ ih))

/-- The libknet transports `fun_dynamic_check.c` exercises. -/
inductive Transport where
  | UDP
  | SCTP
deriving DecidableEq, Repr

/-- Outcome of one `knet_link_set_config` call: its return value and the
errno it left behind (`none`: errno still 0, as the caller cleared it before
the call). -/
structure LinkCfgRes where
  err : Int
  errv : Option Errno
deriving DecidableEq, Repr

/-- Port-scanning loop of `dyn_knet_link_set_config` (`fun_dynamic_check.c`
lines 84-122), with the outcome of `knet_link_set_config` at each candidate
port abstracted as `env` (the loopback `knet_strtoaddr` conversions always
succeed).  `fuel` is the number of candidate ports left; `last` carries the
err/errno pair the `out:` path reports after loop exhaustion.  A failure
other than `EADDRINUSE` stops the scan: `EPROTONOSUPPORT` on SCTP returns
the distinguished value `-2`, anything else returns the failing err;
success returns 0; `EADDRINUSE` tries the next port. -/
def dyn_loop (t : Transport) (env : Nat → LinkCfgRes) :
    Nat → Nat → Int × Option Errno → Int × Option Errno
  | 0, _, last => last
  | fuel + 1, port, _ =>
    let r := env port
    if r.err < 0 ∧ r.errv ≠ some Errno.EADDRINUSE then
      if r.errv = some Errno.EPROTONOSUPPORT ∧ t = Transport.SCTP then
        (-2, r.errv)
      else
        (r.err, r.errv)
    else if r.err = 0 then
      (0, r.errv)
    else
      dyn_loop t env fuel (port + 1) (r.err, r.errv)

/-- Function `dyn_knet_link_set_config` of `fun_dynamic_check.c`: scan ports
1025..65535. -/
def dyn_knet_link_set_config (t : Transport) (env : Nat → LinkCfgRes) :
    Int × Option Errno :=
  dyn_loop t env 64511 1025 (0, none)

/-- How a `FAIL_ON_ERR`-wrapped step leaves the test process. -/
inductive FoeOutcome where
  | proceed
  | skip
  | fail
deriving DecidableEq, Repr

/-- The `FAIL_ON_ERR` macro of `fun_dynamic_check.c` (lines 41-64): a
nonzero result tears the test down and exits with SKIP exactly when the
result is the distinguished value `-2`, with FAIL otherwise. -/
def FAIL_ON_ERR_exit (res : Int) : FoeOutcome :=
  if res ≠ 0 then
    if res = -2 then FoeOutcome.skip else FoeOutcome.fail
  else FoeOutcome.proceed

lemma dyn_loop_reaches (t : Transport) (env : Nat → LinkCfgRes) :
    ∀ (n port fuel : Nat) (last : Int × Option Errno),
      (∀ q, port ≤ q → q < port + n →
        (env q).err < 0 ∧ (env q).errv = some Errno.EADDRINUSE) →
      n < fuel →
      ∃ last2, dyn_loop t env fuel port last =
        dyn_loop t env (fuel - n) (port + n) last2 := by
  intro n
  induction n with
  | zero => intro port fuel last _ _; exact ⟨last, by simp⟩
  | succ n ih =>
    intro port fuel last hskip hlt
    obtain ⟨f, rfl⟩ : ∃ f, fuel = f + 1 := ⟨fuel - 1, by omega⟩
    have hs := hskip port (Nat.le_refl port) (by omega)
    have hc1 : ¬ ((env port).err < 0 ∧ (env port).errv ≠ some Errno.EADDRINUSE) := by
      rw [hs.2]
      simp
    have hc2 : ¬ ((env port).err = 0) := by omega
    have hstep : dyn_loop t env (f + 1) port last =
        dyn_loop t env f (port + 1) ((env port).err, (env port).errv) := by
      simp only [dyn_loop, if_neg hc1, if_neg hc2]
    obtain ⟨last2, h2⟩ := ih (port + 1) f ((env port).err, (env port).errv)
      (fun q hq1 hq2 => hskip q (by omega) (by omega)) (by omega)
    refine ⟨last2, ?_⟩
    rw [hstep, h2]
    have harith1 : f - n = f + 1 - (n + 1) := by omega
    have harith2 : port + 1 + n = port + (n + 1) := by omega
    rw [harith1, harith2]

/-- The port scan reaches the first port `p` that every earlier candidate
rejected with `EADDRINUSE`, with fuel left. -/
lemma dyn_start_at (t : Transport) (env : Nat → LinkCfgRes) (p : Nat)
    (hp1 : 1025 ≤ p) (hp2 : p < 65536)
    (hpre : ∀ q, 1025 ≤ q → q < p →
      (env q).err < 0 ∧ (env q).errv = some Errno.EADDRINUSE) :
    ∃ (f : Nat) (last2 : Int × Option Errno),
      dyn_knet_link_set_config t env = dyn_loop t env (f + 1) p last2 := by
  obtain ⟨last2, h2⟩ := dyn_loop_reaches t env (p - 1025) 1025 64511 (0, none)
    (fun q hq1 hq2 => hpre q hq1 (by omega)) (by omega)
  have hport : 1025 + (p - 1025) = p := by omega
  have hf : 64511 - (p - 1025) = (64510 - (p - 1025)) + 1 := by omega
  rw [hport, hf] at h2
  exact ⟨64510 - (p - 1025), last2, h2⟩

/-- One iteration's input to the `recv_messages` loop of
`fun_dynamic_check.c`: a positive-length datagram carrying `s`, a zero
return (stream closed), or a negative return with (`EAGAIN`) or without a
retryable errno.  The FOE quit flag is never raised in the quit-handshake
scenario modelled here. -/
inductive RecvEv where
  | data (s : String)
  | closed
  | nodata (again : Bool)
deriving DecidableEq, Repr

/-- Why the `recv_messages` loop stopped. -/
inductive RecvExit where
  | quitExit
  | blockedFail
  | errExit
  | closedExit
  | streamEnd
deriving DecidableEq, Repr

/-- The `buf[0] == '0'` test of `recv_messages`: whether the first byte of
the payload is the character '0'. -/
def first_char_zero (s : String) : Bool :=
  match s.data with
  | [] => false
  | c :: _ => c = '0'

/-- The `recv_messages` loop of `fun_dynamic_check.c` (lines 133-168) run
over a stream of recv outcomes, starting from counter `n` (`msgs_recvd`): a
received datagram is counted first; the literal "QUIT" then breaks the loop;
a payload whose first byte is '0' fails the thread; a negative recv with
`EAGAIN` iterates, with any other errno it breaks; a zero-length recv ends
the while condition.  Returns the final counter and the exit cause. -/
def recv_messages_run : List RecvEv → Nat → Nat × RecvExit
  | [], n => (n, RecvExit.streamEnd)
  | RecvEv.closed :: _, n => (n, RecvExit.closedExit)
  | RecvEv.data s :: rest, n =>
    if s = "QUIT" then (n + 1, RecvExit.quitExit)
    else if first_char_zero s then (n + 1, RecvExit.blockedFail)
    else recv_messages_run rest (n + 1)
  | RecvEv.nodata again :: rest, n =>
    if again then recv_messages_run rest n else (n, RecvExit.errExit)

/-- The constant `CORRECT_NUM_MSGS` of `fun_dynamic_check.c`. -/
def CORRECT_NUM_MSGS : Nat := 10

/-- The final check of `test` (`fun_dynamic_check.c` lines 375-378): the run
fails unless the number of received messages is `CORRECT_NUM_MSGS` or
`CORRECT_NUM_MSGS - 1`. -/
def final_msg_check (msgs_recvd : Nat) : Bool :=
  if msgs_recvd ≠ CORRECT_NUM_MSGS ∧ msgs_recvd ≠ CORRECT_NUM_MSGS - 1 then
    false
  else true

/-- A recv outcome that neither terminates nor fails the loop. -/
def benignEv : RecvEv → Bool
  | RecvEv.data s => decide (s ≠ "QUIT") && !(first_char_zero s)
  | RecvEv.closed => false
  | RecvEv.nodata again => again

/-- Number of positive-length datagrams in a stream prefix. -/
def dataCount : List RecvEv → Nat
  | [] => 0
  | RecvEv.data _ :: rest => dataCount rest + 1
  | _ :: rest => dataCount rest

end Knet

namespace Knet

/-- C1: the registered table is exactly `none, zlib, lz4, lz4hc, lzo2, lzma,
bzip2` at indices 0..6 (index 0 being the sentinel "none"), and for every
index `i ≤ 6`, `get_model` applied to the name read back at `i` returns `i`
itself. -/
theorem compress_table_fixed_indices :
    (get_model_by_idx 0 = some "none" ∧
     get_model_by_idx 1 = some "zlib" ∧
     get_model_by_idx 2 = some "lz4" ∧
     get_model_by_idx 3 = some "lz4hc" ∧
     get_model_by_idx 4 = some "lzo2" ∧
     get_model_by_idx 5 = some "lzma" ∧
     get_model_by_idx 6 = some "bzip2") ∧
    (∀ i : Nat, i ≤ 6 → (get_model_by_idx i).map get_model = some (i : Int)) := by
  constructor
  · exact ⟨rfl, rfl, rfl, rfl, rfl, rfl, rfl⟩
  · decide

/-- C2: with a present cfg naming a known algorithm of positive index whose
level validation accepts the requested level, `compress_init` fails with a
config error (`-1`/`EINVAL`) when the threshold exceeds the maximum packet
size; a zero threshold stores the default threshold; any other in-range
threshold is stored as given; and on success the resolved index and level are
stored on the handle and `0` is returned. -/
theorem compress_init_threshold_rules
    (C : CompressConsts) (env : HookEnv) (cfg : knet_handle_compress_cfg)
    (h : knet_handle) (m : Int) (vname : String)
    (hbound : get_max_model ≤ C.KNET_MAX_COMPRESS_METHODS)
    (hm : get_model cfg.compress_model = m) (hm0 : 0 < m)
    (hv : val_level_hook m = some vname)
    (hval : 0 ≤ env.val_level_ret vname cfg.compress_level) :
    (C.KNET_MAX_PACKET_SIZE < cfg.compress_threshold →
      compress_init C env (some cfg) h =
        some ⟨-1, some Errno.EINVAL, { h with compress_max_model := get_max_model }⟩) ∧
    (cfg.compress_threshold = 0 →
      compress_init C env (some cfg) h =
        some ⟨0, none, { h with compress_max_model := get_max_model,
                                compress_threshold := C.KNET_COMPRESS_THRESHOLD,
                                compress_model := m,
                                compress_level := cfg.compress_level }⟩) ∧
    (0 < cfg.compress_threshold → cfg.compress_threshold ≤ C.KNET_MAX_PACKET_SIZE →
      compress_init C env (some cfg) h =
        some ⟨0, none, { h with compress_max_model := get_max_model,
                                compress_threshold := cfg.compress_threshold,
                                compress_model := m,
                                compress_level := cfg.compress_level }⟩) := by
  have hnb : ¬ (get_max_model > C.KNET_MAX_COMPRESS_METHODS) := not_lt.mpr hbound
  have hnneg : ¬ (m < 0) := not_lt.mpr hm0.le
  have hnval : ¬ (env.val_level_ret vname cfg.compress_level < 0) := not_lt.mpr hval
  refine ⟨?_, ?_, ?_⟩
  · intro hts
    simp only [compress_init, hm, hv, if_neg hnb, if_neg hnneg, if_pos hm0,
      if_neg hnval, if_pos hts]
  · intro hts
    have hnts : ¬ (cfg.compress_threshold > C.KNET_MAX_PACKET_SIZE) := by
      simp [hts]
    simp only [compress_init, hm, hv, if_neg hnb, if_neg hnneg, if_pos hm0,
      if_neg hnval, if_neg hnts, if_pos hts]
  · intro hts0 htsle
    have hnts : ¬ (cfg.compress_threshold > C.KNET_MAX_PACKET_SIZE) :=
      not_lt.mpr htsle
    have hts : ¬ (cfg.compress_threshold = 0) := by omega
    simp only [compress_init, hm, hv, if_neg hnb, if_neg hnneg, if_pos hm0,
      if_neg hnval, if_neg hnts, if_neg hts]

/-- Witness for C2 at a concrete instantiation: the real constants
(16/65536/100), the `lz4` row (index 2), an accepting validator and a
threshold of zero. -/
theorem compress_init_threshold_rules_witness :
    compress_init ⟨16, 65536, 100⟩
      ⟨fun _ _ => 0, fun _ _ => 0, fun _ b => (0, b), fun _ b => (0, b)⟩
      (some ⟨"lz4", 1, 0⟩) ⟨0, 0, 0, 0, false⟩ =
      some ⟨0, none, { compress_model := 2, compress_level := 1,
                       compress_threshold := 100, compress_max_model := 6,
                       lzo2_mem := false }⟩ :=
  (compress_init_threshold_rules ⟨16, 65536, 100⟩
      ⟨fun _ _ => 0, fun _ _ => 0, fun _ b => (0, b), fun _ b => (0, b)⟩
      ⟨"lz4", 1, 0⟩ ⟨0, 0, 0, 0, false⟩ 2 "lz4_val_level"
      (by decide) (by decide) (by decide) (by decide) (by decide)).2.1 rfl

/-- C3: with a present cfg, an unknown model name makes `compress_init`
return the config error `-1`/`EINVAL`; a known model of positive index whose
level validator returns a negative value likewise. -/
theorem compress_init_rejects_bad_cfg
    (C : CompressConsts) (env : HookEnv) (cfg : knet_handle_compress_cfg)
    (h : knet_handle)
    (hbound : get_max_model ≤ C.KNET_MAX_COMPRESS_METHODS) :
    (get_model cfg.compress_model = -1 →
      compress_init C env (some cfg) h =
        some ⟨-1, some Errno.EINVAL, { h with compress_max_model := get_max_model }⟩) ∧
    (∀ m vname, get_model cfg.compress_model = m → 0 < m →
      val_level_hook m = some vname →
      env.val_level_ret vname cfg.compress_level < 0 →
      compress_init C env (some cfg) h =
        some ⟨-1, some Errno.EINVAL, { h with compress_max_model := get_max_model }⟩) := by
  have hnb : ¬ (get_max_model > C.KNET_MAX_COMPRESS_METHODS) := not_lt.mpr hbound
  constructor
  · intro hm
    have hneg : get_model cfg.compress_model < 0 := by rw [hm]; decide
    simp only [compress_init, if_neg hnb, if_pos hneg]
  · intro m vname hm hm0 hv hval
    have hnneg : ¬ (m < 0) := not_lt.mpr hm0.le
    simp only [compress_init, hm, hv, if_neg hnb, if_neg hnneg, if_pos hm0,
      if_pos hval]

/-- Witness for C3: the real constants and a cfg naming the unknown model
"gzip". -/
theorem compress_init_rejects_bad_cfg_witness :
    compress_init ⟨16, 65536, 100⟩
      ⟨fun _ _ => 0, fun _ _ => 0, fun _ b => (0, b), fun _ b => (0, b)⟩
      (some ⟨"gzip", 1, 0⟩) ⟨0, 0, 0, 0, false⟩ =
      some ⟨-1, some Errno.EINVAL,
            { compress_model := 0, compress_level := 0, compress_threshold := 0,
              compress_max_model := 6, lzo2_mem := false }⟩ :=
  (compress_init_rejects_bad_cfg ⟨16, 65536, 100⟩
      ⟨fun _ _ => 0, fun _ _ => 0, fun _ b => (0, b), fun _ b => (0, b)⟩
      ⟨"gzip", 1, 0⟩ ⟨0, 0, 0, 0, false⟩ (by decide)).1 (by decide)

/-- C10: whenever `compress_init` with a present cfg returns an error, the
handle it leaves behind differs from the incoming one only in
`compress_max_model`; in particular `compress_model`, `compress_level` and
`compress_threshold` keep their previous values. -/
theorem compress_init_error_preserves_selection
    (C : CompressConsts) (env : HookEnv) (cfg : knet_handle_compress_cfg)
    (h : knet_handle) (r : InitResult)
    (hr : compress_init C env (some cfg) h = some r)
    (hret : r.ret ≠ 0) :
    r.h = { h with compress_max_model := get_max_model } := by
  simp only [compress_init] at hr
  split at hr
  · obtain rfl := Option.some.inj hr
    rfl
  · split at hr
    · obtain rfl := Option.some.inj hr
      rfl
    · split at hr
      · split at hr
        · exact absurd hr (by simp)
        · split at hr
          · obtain rfl := Option.some.inj hr
            rfl
          · split at hr
            · obtain rfl := Option.some.inj hr
              rfl
            · obtain rfl := Option.some.inj hr
              exact absurd rfl hret
      · obtain rfl := Option.some.inj hr
        exact absurd rfl hret

/-- Witness for C10 at the unknown-model error of the C3 witness. -/
theorem compress_init_error_preserves_selection_witness :
    (⟨-1, some Errno.EINVAL,
      { compress_model := 0, compress_level := 0, compress_threshold := 0,
        compress_max_model := 6, lzo2_mem := false }⟩ : InitResult).h =
      { (⟨0, 0, 0, 0, false⟩ : knet_handle) with compress_max_model := get_max_model } :=
  compress_init_error_preserves_selection ⟨16, 65536, 100⟩
    ⟨fun _ _ => 0, fun _ _ => 0, fun _ b => (0, b), fun _ b => (0, b)⟩
    ⟨"gzip", 1, 0⟩ ⟨0, 0, 0, 0, false⟩ _ (by decide) (by decide)

/-- C4: called with an absent cfg (and the table bound respected, with every
declared init hook succeeding), `compress_init` issues exactly the init calls
of the registered rows that declare one, in table order — concretely the
single call `(4, lzo2_init)` — and returns success. -/
theorem compress_init_null_cfg_prewarms
    (C : CompressConsts) (env : HookEnv) (h : knet_handle)
    (hbound : get_max_model ≤ C.KNET_MAX_COMPRESS_METHODS)
    (hok : ∀ p ∈ declared_init_hooks compress_modules_cmds 0,
      0 ≤ env.init_ret p.2 p.1) :
    (∃ h', compress_init C env none h = some ⟨0, none, h'⟩) ∧
    compress_init_calls C env none h = declared_init_hooks compress_modules_cmds 0 ∧
    declared_init_hooks compress_modules_cmds 0 = [(4, "lzo2_init")] := by
  have hd : declared_init_hooks compress_modules_cmds 0 = [(4, "lzo2_init")] := rfl
  have h4 : 0 ≤ env.init_ret "lzo2_init" 4 := by
    have := hok (4, "lzo2_init")
    rw [hd] at this
    exact this (by simp)
  have hnb : ¬ (get_max_model > C.KNET_MAX_COMPRESS_METHODS) := not_lt.mpr hbound
  refine ⟨⟨apply_init_hook "lzo2_init" { h with compress_max_model := get_max_model }, ?_⟩,
          ?_, hd⟩
  · simp only [compress_init, compress_modules_cmds, compress_init_loop,
      if_neg hnb, if_neg (not_lt.mpr h4)]
  · simp only [compress_init_calls, compress_modules_cmds, compress_init_loop,
      if_neg hnb, if_neg (not_lt.mpr h4), hd]
    rfl

/-- Witness for C4: the real constants and an environment whose init hooks
all return 0. -/
theorem compress_init_null_cfg_prewarms_witness :
    (∃ h', compress_init ⟨16, 65536, 100⟩
        ⟨fun _ _ => 0, fun _ _ => 0, fun _ b => (0, b), fun _ b => (0, b)⟩
        none ⟨0, 0, 0, 0, false⟩ = some ⟨0, none, h'⟩) ∧
    compress_init_calls ⟨16, 65536, 100⟩
        ⟨fun _ _ => 0, fun _ _ => 0, fun _ b => (0, b), fun _ b => (0, b)⟩
        none ⟨0, 0, 0, 0, false⟩ = declared_init_hooks compress_modules_cmds 0 ∧
    declared_init_hooks compress_modules_cmds 0 = [(4, "lzo2_init")] :=
  compress_init_null_cfg_prewarms ⟨16, 65536, 100⟩
    ⟨fun _ _ => 0, fun _ _ => 0, fun _ b => (0, b), fun _ b => (0, b)⟩
    ⟨0, 0, 0, 0, false⟩ (by decide) (by intro p _; exact Int.le_refl 0)

/-- C5: `compress` dispatches through the row at the handle's own
`compress_model` (its result depends on the handle only through that field),
while `decompress` dispatches through the row at its explicit index argument
and reads nothing at all from the handle, so the two indices are consulted
independently. -/
theorem compress_decompress_dispatch
    (env : HookEnv) (h h2 : knet_handle) (idx : Int) (buf : List Nat) :
    (h2.compress_model = h.compress_model →
      compress env h2 buf = compress env h buf) ∧
    (decompress env h2 idx buf = decompress env h idx buf) ∧
    (0 ≤ h.compress_model →
      compress env h buf =
        ((compress_modules_cmds.get? h.compress_model.toNat).bind
          (fun e => e.compress)).map (fun cname => env.comp_fn cname buf)) ∧
    (0 ≤ idx →
      decompress env h idx buf =
        ((compress_modules_cmds.get? idx.toNat).bind
          (fun e => e.decompress)).map (fun dname => env.decomp_fn dname buf)) := by
  refine ⟨?_, rfl, ?_, ?_⟩
  · intro heq
    simp only [compress, heq]
  · intro h0
    simp only [compress, if_neg (not_lt.mpr h0)]
    rcases (compress_modules_cmds.get? h.compress_model.toNat).bind
        (fun e => e.compress) with _ | cname <;> rfl
  · intro h0
    simp only [decompress, if_neg (not_lt.mpr h0)]
    rcases (compress_modules_cmds.get? idx.toNat).bind
        (fun e => e.decompress) with _ | dname <;> rfl

/-- Witness for C5: a handle that selected zlib (index 1) while the incoming
header names lz4 (index 2); the two dispatches resolve to `zlib_compress` and
`lz4_decompress` respectively. -/
theorem compress_decompress_dispatch_witness :
    compress ⟨fun _ _ => 0, fun _ _ => 0, fun n b => (n.length, b), fun _ b => (0, b)⟩
        ⟨1, 1, 100, 6, false⟩ [9] =
      compress ⟨fun _ _ => 0, fun _ _ => 0, fun n b => (n.length, b), fun _ b => (0, b)⟩
        ⟨1, 5, 0, 0, true⟩ [9] ∧
    decompress ⟨fun _ _ => 0, fun _ _ => 0, fun n b => (n.length, b), fun _ b => (0, b)⟩
        ⟨1, 1, 100, 6, false⟩ 2 [9] =
      ((compress_modules_cmds.get? (2 : Int).toNat).bind
        (fun e => e.decompress)).map
        (fun dname =>
          HookEnv.decomp_fn ⟨fun _ _ => 0, fun _ _ => 0, fun n b => (n.length, b),
            fun _ b => (0, b)⟩ dname [9]) :=
  ⟨(compress_decompress_dispatch
      ⟨fun _ _ => 0, fun _ _ => 0, fun n b => (n.length, b), fun _ b => (0, b)⟩
      ⟨1, 5, 0, 0, true⟩ ⟨1, 1, 100, 6, false⟩ 2 [9]).1 rfl,
   ((compress_decompress_dispatch
      ⟨fun _ _ => 0, fun _ _ => 0, fun n b => (n.length, b), fun _ b => (0, b)⟩
      ⟨1, 1, 100, 6, false⟩ ⟨1, 1, 100, 6, false⟩ 2 [9]).2.2.2 (by decide))⟩

/-- C6: when the compile-time bound exceeds the last registered index,
`compress_fini` issues exactly the fini calls of the registered rows that
declare one, in table order — concretely the single call `(4, lzo2_fini)`;
it is idempotent on the handle state; and it is a no-op (in particular safe)
on a handle on which no init ever ran. -/
theorem compress_fini_hooks_idempotent_safe (M : Int) (h : knet_handle) :
    (get_max_model < M →
      compress_fini_calls M h = declared_fini_hooks compress_modules_cmds 0 ∧
      declared_fini_hooks compress_modules_cmds 0 = [(4, "lzo2_fini")]) ∧
    compress_fini M (compress_fini M h) = compress_fini M h ∧
    (h.lzo2_mem = false → compress_fini M h = h) := by
  have h6 : get_max_model = 6 := by decide
  refine ⟨?_, ?_, ?_⟩
  · intro hM
    rw [h6] at hM
    have h0 : ((0 : Nat) : Int) < M := by omega
    have h1 : ((1 : Nat) : Int) < M := by omega
    have h2 : ((2 : Nat) : Int) < M := by omega
    have h3 : ((3 : Nat) : Int) < M := by omega
    have h4 : ((4 : Nat) : Int) < M := by omega
    have h5 : ((5 : Nat) : Int) < M := by omega
    have h6' : ((6 : Nat) : Int) < M := by omega
    refine ⟨?_, rfl⟩
    simp only [compress_fini_calls, compress_modules_cmds, compress_fini_loop,
      if_pos h0, if_pos h1, if_pos h2, if_pos h3, if_pos h4, if_pos h5, if_pos h6']
    decide
  · rcases h with ⟨a, b, c, d, e⟩
    simp only [compress_fini, compress_modules_cmds, compress_fini_loop,
      apply_fini_hook]
    split_ifs <;> rfl
  · intro he
    rcases h with ⟨a, b, c, d, e⟩
    cases he
    simp only [compress_fini, compress_modules_cmds, compress_fini_loop,
      apply_fini_hook]
    split_ifs <;> rfl

/-- Witness for C6 at the real bound 16 and a never-initialized handle. -/
theorem compress_fini_hooks_idempotent_safe_witness :
    (compress_fini_calls 16 ⟨0, 0, 0, 0, false⟩ =
       declared_fini_hooks compress_modules_cmds 0 ∧
     declared_fini_hooks compress_modules_cmds 0 = [(4, "lzo2_fini")]) ∧
    compress_fini 16 (compress_fini 16 ⟨0, 0, 0, 0, false⟩) =
      compress_fini 16 ⟨0, 0, 0, 0, false⟩ ∧
    compress_fini 16 ⟨0, 0, 0, 0, false⟩ = ⟨0, 0, 0, 0, false⟩ :=
  ⟨(compress_fini_hooks_idempotent_safe 16 ⟨0, 0, 0, 0, false⟩).1 (by decide),
   (compress_fini_hooks_idempotent_safe 16 ⟨0, 0, 0, 0, false⟩).2.1,
   (compress_fini_hooks_idempotent_safe 16 ⟨0, 0, 0, 0, false⟩).2.2 rfl⟩

/-- C7: on the harness teardown trace (link ids reported as `0..k-1`, as the
harness configures them), forwarding is set to false first; every enabled
link is disabled before its config is cleared; every host's links are cleared
before that host is removed; and the handle is freed only after every host
removal. -/
theorem knet_handle_stop_teardown_order
    (hosts : List HostSt)
    (hidx : ∀ hst ∈ hosts, hst.links.map LinkSt.id = List.range hst.links.length) :
    (knet_handle_stop_trace hosts).head? = some (StopEv.setfwd false) ∧
    (∀ hst ∈ hosts, ∀ l ∈ hst.links, l.enabled = true →
      occursBefore (StopEv.set_enable hst.id l.id false)
        (StopEv.clear_config hst.id l.id) (knet_handle_stop_trace hosts)) ∧
    (∀ hst ∈ hosts, ∀ l ∈ hst.links,
      occursBefore (StopEv.clear_config hst.id l.id)
        (StopEv.host_remove hst.id) (knet_handle_stop_trace hosts)) ∧
    (∀ hst ∈ hosts,
      occursBefore (StopEv.host_remove hst.id) StopEv.handle_free
        (knet_handle_stop_trace hosts)) := by
  refine ⟨rfl, ?_, ?_, ?_⟩
  · intro hst hmem l hl he
    obtain ⟨j, hj⟩ := List.mem_iff_get?.mp hl
    rw [link_id_of_wellIndexed (hidx hst hmem) hj]
    have hlink := stop_link_disable_before_clear hst.id hst.links 0 j l hj he
    rw [Nat.zero_add] at hlink
    refine occursBefore_cons _ (occursBefore_cons _ (occursBefore_append_left _ ?_))
    exact occursBefore_in_host_block hosts hst hmem
      (fun tail => occursBefore_append_left _ hlink)
  · intro hst hmem l hl
    obtain ⟨j, hj⟩ := List.mem_iff_get?.mp hl
    rw [link_id_of_wellIndexed (hidx hst hmem) hj]
    have hclear := stop_link_clear_mem hst.id hst.links 0 j (get?_some_lt hj)
    rw [Nat.zero_add] at hclear
    refine occursBefore_cons _ (occursBefore_cons _ (occursBefore_append_left _ ?_))
    exact occursBefore_in_host_block hosts hst hmem
      (fun tail => occursBefore_of_mem hclear (List.mem_cons_self _ _))
  · intro hst hmem
    have hrem := host_remove_mem_stop_host_events hosts hst hmem
    show occursBefore _ _
      ((StopEv.setfwd false :: StopEv.get_host_list :: stop_host_events hosts) ++
        [StopEv.handle_free])
    exact occursBefore_of_mem
      (List.mem_cons_of_mem _ (List.mem_cons_of_mem _ hrem))
      (List.mem_singleton.mpr rfl)

/-- Witness for C7: two hosts, the first with an enabled link 0 and a
disabled link 1, the second with an enabled link 0. -/
theorem knet_handle_stop_teardown_order_witness :
    (knet_handle_stop_trace
        [⟨1, [⟨0, true⟩, ⟨1, false⟩]⟩, ⟨2, [⟨0, true⟩]⟩]).head? =
      some (StopEv.setfwd false) ∧
    occursBefore (StopEv.set_enable 1 0 false) (StopEv.clear_config 1 0)
      (knet_handle_stop_trace [⟨1, [⟨0, true⟩, ⟨1, false⟩]⟩, ⟨2, [⟨0, true⟩]⟩]) ∧
    occursBefore (StopEv.clear_config 2 0) (StopEv.host_remove 2)
      (knet_handle_stop_trace [⟨1, [⟨0, true⟩, ⟨1, false⟩]⟩, ⟨2, [⟨0, true⟩]⟩]) ∧
    occursBefore (StopEv.host_remove 1) StopEv.handle_free
      (knet_handle_stop_trace [⟨1, [⟨0, true⟩, ⟨1, false⟩]⟩, ⟨2, [⟨0, true⟩]⟩]) := by
  have h := knet_handle_stop_teardown_order
    [⟨1, [⟨0, true⟩, ⟨1, false⟩]⟩, ⟨2, [⟨0, true⟩]⟩] (by decide)
  exact ⟨h.1,
         h.2.1 ⟨1, [⟨0, true⟩, ⟨1, false⟩]⟩ (by simp) ⟨0, true⟩ (by simp) rfl,
         h.2.2.1 ⟨2, [⟨0, true⟩]⟩ (by simp) ⟨0, true⟩ (by simp),
         h.2.2.2 ⟨1, [⟨0, true⟩, ⟨1, false⟩]⟩ (by simp)⟩

/-- C8: let `p` be the first port whose `knet_link_set_config` outcome is not
an address-in-use failure (every earlier candidate port, retried by the scan,
failed with `EADDRINUSE`).  If that outcome is a failure with
`EPROTONOSUPPORT` on the SCTP transport, `dyn_knet_link_set_config` returns
the distinguished value `-2` and `FAIL_ON_ERR` exits with SKIP; for any other
configuration failure (the API's failure return is `-1`) it returns the
failure and `FAIL_ON_ERR` exits with FAIL. -/
theorem sctp_proto_unsupported_skips
    (env : Nat → LinkCfgRes) (p : Nat)
    (hp1 : 1025 ≤ p) (hp2 : p < 65536)
    (hpre : ∀ q, 1025 ≤ q → q < p →
      (env q).err < 0 ∧ (env q).errv = some Errno.EADDRINUSE) :
    ((env p).err < 0 → (env p).errv = some Errno.EPROTONOSUPPORT →
      dyn_knet_link_set_config Transport.SCTP env =
        (-2, some Errno.EPROTONOSUPPORT) ∧
      FAIL_ON_ERR_exit (dyn_knet_link_set_config Transport.SCTP env).1 =
        FoeOutcome.skip) ∧
    (∀ (t : Transport) (e : Errno), (env p).err = -1 → (env p).errv = some e →
      e ≠ Errno.EADDRINUSE → ¬(e = Errno.EPROTONOSUPPORT ∧ t = Transport.SCTP) →
      dyn_knet_link_set_config t env = (-1, some e) ∧
      FAIL_ON_ERR_exit (dyn_knet_link_set_config t env).1 = FoeOutcome.fail) := by
  constructor
  · intro herr hev
    obtain ⟨f, last2, hrw⟩ := dyn_start_at Transport.SCTP env p hp1 hp2 hpre
    have hc1 : (env p).err < 0 ∧ (env p).errv ≠ some Errno.EADDRINUSE := by
      rw [hev]
      exact ⟨herr, by simp⟩
    have hstep : dyn_knet_link_set_config Transport.SCTP env =
        (-2, some Errno.EPROTONOSUPPORT) := by
      rw [hrw]
      simp [dyn_loop, hev, herr]
    exact ⟨hstep, by rw [hstep]; simp [FAIL_ON_ERR_exit]⟩
  · intro t e herr hev hne hnp
    obtain ⟨f, last2, hrw⟩ := dyn_start_at t env p hp1 hp2 hpre
    have hc1 : (env p).err < 0 ∧ (env p).errv ≠ some Errno.EADDRINUSE := by
      rw [hev, herr]
      refine ⟨by decide, by simpa using hne⟩
    have hc2 : ¬ ((env p).errv = some Errno.EPROTONOSUPPORT ∧ t = Transport.SCTP) := by
      rw [hev]
      intro hcon
      exact hnp ⟨Option.some.inj hcon.1, hcon.2⟩
    have hstep : dyn_knet_link_set_config t env = (-1, some e) := by
      rw [hrw]
      have hse : (some e ≠ some Errno.EADDRINUSE) := by simpa using hne
      simp [dyn_loop, hev, herr, hse]
      exact fun h1 h2 => hnp ⟨h1, h2⟩
    exact ⟨hstep, by rw [hstep]; simp [FAIL_ON_ERR_exit]⟩

/-- Witness for C8: an environment in which port 1025 immediately fails with
`EPROTONOSUPPORT` on SCTP. -/
theorem sctp_proto_unsupported_skips_witness :
    dyn_knet_link_set_config Transport.SCTP
        (fun q => if q = 1025 then ⟨-1, some Errno.EPROTONOSUPPORT⟩
                  else ⟨-1, some Errno.EADDRINUSE⟩) =
      (-2, some Errno.EPROTONOSUPPORT) ∧
    FAIL_ON_ERR_exit (dyn_knet_link_set_config Transport.SCTP
        (fun q => if q = 1025 then ⟨-1, some Errno.EPROTONOSUPPORT⟩
                  else ⟨-1, some Errno.EADDRINUSE⟩)).1 = FoeOutcome.skip :=
  (sctp_proto_unsupported_skips
      (fun q => if q = 1025 then ⟨-1, some Errno.EPROTONOSUPPORT⟩
                else ⟨-1, some Errno.EADDRINUSE⟩)
      1025 (by decide) (by decide)
      (fun q hq1 hq2 => absurd (hq1.trans_lt hq2) (lt_irrefl 1025))).1
    (by decide) (by decide)

/-- C9: a "QUIT" datagram arriving after any run of benign recv outcomes is
counted exactly like any other payload and then terminates the receive loop
(later stream elements are never consumed); and the final check of the test
passes exactly when the total count is 10 or 9. -/
theorem quit_handshake_counted :
    (∀ (pre rest : List RecvEv) (n : Nat),
      (∀ e ∈ pre, benignEv e = true) →
      recv_messages_run (pre ++ RecvEv.data "QUIT" :: rest) n =
        (n + dataCount pre + 1, RecvExit.quitExit)) ∧
    (∀ m : Nat, final_msg_check m = true ↔ (m = 10 ∨ m = 9)) := by
  constructor
  · intro pre rest n hb
    induction pre generalizing n with
    | nil => simp [recv_messages_run, dataCount]
    | cons e pre ih =>
      have hbe := hb e (List.mem_cons_self _ _)
      have hb' : ∀ x ∈ pre, benignEv x = true :=
        fun x hx => hb x (List.mem_cons_of_mem _ hx)
      cases e with
      | data s =>
        rw [benignEv, Bool.and_eq_true] at hbe
        have h1 : ¬ (s = "QUIT") := by simpa using hbe.1
        have h2 : first_char_zero s = false := by simpa using hbe.2
        have hone : recv_messages_run
            (RecvEv.data s :: (pre ++ RecvEv.data "QUIT" :: rest)) n =
            recv_messages_run (pre ++ RecvEv.data "QUIT" :: rest) (n + 1) := by
          simp [recv_messages_run, h1, h2]
        rw [List.cons_append, hone, ih _ hb']
        simp only [dataCount, Prod.mk.injEq]
        exact ⟨by omega, trivial⟩
      | closed => simp [benignEv] at hbe
      | nodata again =>
        have ha : again = true := hbe
        subst ha
        have hone : recv_messages_run
            (RecvEv.nodata true :: (pre ++ RecvEv.data "QUIT" :: rest)) n =
            recv_messages_run (pre ++ RecvEv.data "QUIT" :: rest) n := by
          simp [recv_messages_run]
        rw [List.cons_append, hone, ih _ hb']
        simp only [dataCount]
  · intro m
    rw [final_msg_check]
    split_ifs with hc
    · simp only [false_iff]
      rw [CORRECT_NUM_MSGS] at hc
      omega
    · simp only [true_iff]
      rw [CORRECT_NUM_MSGS] at hc
      omega

/-- Witness for C9: two benign outcomes (a payload and an `EAGAIN`), then
"QUIT", then a never-consumed late datagram; and the passing count 9. -/
theorem quit_handshake_counted_witness :
    recv_messages_run
        [RecvEv.data "Testing from 127.0.0.1", RecvEv.nodata true,
         RecvEv.data "QUIT", RecvEv.data "late"] 0 = (2, RecvExit.quitExit) ∧
    (final_msg_check 9 = true ↔ ((9 : Nat) = 10 ∨ (9 : Nat) = 9)) :=
  ⟨by
    have h := quit_handshake_counted.1
      [RecvEv.data "Testing from 127.0.0.1", RecvEv.nodata true]
      [RecvEv.data "late"] 0 (by decide)
    simpa using h,
   quit_handshake_counted.2 9⟩

end Knet
